import Mathlib

/-!
Shallow embedding of the GKH jewelry storefront backend (src/server.js and
the earlier variant src/unnamed/part_000): a catalog-and-order server whose
state is three JSON-array files (products, carts, orders).  Each HTTP
handler is modelled as a pure function from a request and a server state to
a new server state and a response.  File contents are modelled by the
`StoreFile` type, which distinguishes an absent file, a file whose content
does not parse as a JSON array, and a well-formed stored array; this is the
granularity at which the server code itself observes files (readFile /
JSON.parse either throws or yields the array).
-/

namespace GKH

/-- The model of the JS String.prototype.trim(): drop whitespace from
both ends (written out over the character list so that it evaluates by
kernel reduction). -/
def jsTrim (s : String) : String :=
  String.mk
    (((s.data.dropWhile Char.isWhitespace).reverse.dropWhile
      Char.isWhitespace).reverse)

/-- Allowed brand strings (ALLOWED_BRANDS in server.js). -/
def ALLOWED_BRANDS : List String :=
  ["Cartier", "Bvlgari", "Van Cleef & Arpels", "Chrome Hearts", "GKH Jewelry"]

/-- Allowed product type strings (ALLOWED_TYPES in server.js). -/
def ALLOWED_TYPES : List String :=
  ["Nhẫn", "Dây chuyền", "Vòng tay", "Vòng cổ", "Khuyên tai"]

/-- Allowed material strings (ALLOWED_MATERIALS in server.js). -/
def ALLOWED_MATERIALS : List String :=
  ["18K Gold", "24K Gold", "925 Silver", "Platinum", "Diamond"]

/-- A catalog record, as written to products.json by server.js.  The JS
field `type` is called `ptype` here because `type` is reserved in Lean.
Numeric fields are modelled over Int; the server only ever compares them
with 0 and adds or subtracts integers on them. -/
structure Product where
  name : String
  brand : String
  ptype : String
  stock : Int
  imageUrl : String
  originalPrice : Int
  salePrice : Int
  material : String
  deriving Repr, DecidableEq

/-- The (name, brand, material) key used by every lookup in server.js. -/
def keyMatch (p : Product) (n b m : String) : Bool :=
  p.name = n && p.brand = b && p.material = m

/-- The (name, brand, material) triple of a record. -/
def triple (p : Product) : String × String × String :=
  (p.name, p.brand, p.material)

/-- A cart line item, as stored in carts.json. -/
structure CartItem where
  name : String
  brand : String
  material : String
  quantity : Int
  deriving Repr, DecidableEq

/-- A per-guest cart, as stored in carts.json by server.js. -/
structure Cart where
  guestId : String
  items : List CartItem
  deriving Repr, DecidableEq

/-- Card payment details captured on an order. -/
structure CardDetails where
  cardNumber : String
  expiryDate : String
  cvv : String
  deriving Repr, DecidableEq

/-- An order record, as appended to orders.json by server.js. -/
structure OrderRec where
  guestId : String
  fullName : String
  phone : String
  address : String
  paymentMethod : String
  cardDetails : Option CardDetails
  cartItems : List CartItem
  totalPrice : Int
  orderDate : String
  deriving Repr, DecidableEq

/-- The observable content of one JSON-array file: absent (readFile
throws ENOENT), malformed (JSON.parse throws or the value is not the
expected array), or a stored array. -/
inductive StoreFile (α : Type) where
  | absent : StoreFile α
  | corrupt : StoreFile α
  | stored : List α → StoreFile α
  deriving Repr, DecidableEq

/-- Read with the try/catch fallback used by add_product, upload_excel and
the cart and order handlers: any read or parse failure leaves the local
variable at its initial empty-array value. -/
def readFallback {α : Type} : StoreFile α → List α
  | .stored l => l
  | _ => []

/-- Read without a fallback, as in the patch and delete product handlers:
a read or parse failure throws out of the locked section. -/
def readStrict {α : Type} : StoreFile α → Option (List α)
  | .stored l => some l
  | _ => none

/-- The whole persistent state of the server: the three JSON files. -/
structure ServerState where
  products : StoreFile Product
  carts : StoreFile Cart
  orders : StoreFile OrderRec
  deriving Repr, DecidableEq

/-! ### Product creation (app.post "/api/products", server.js lines 287-378) -/

/-- The multipart body of a create-product request.  Absent or empty text
fields are `none` (both are falsy in the JS presence check); `stock`,
`originalPrice` and `salePrice` carry the integer the corresponding form
string parses to, `none` when the field is absent or empty. -/
structure AddProductReq where
  name : Option String
  brand : Option String
  ptype : Option String
  material : Option String
  stock : Option Int
  originalPrice : Option Int
  salePrice : Option Int
  image : Option String
  deriving Repr, DecidableEq

/-- Response of the create-product handler. -/
inductive AddProductResp where
  | badRequest : AddProductResp
  | dupError : String → String → String → AddProductResp
  | created : Product → AddProductResp
  deriving Repr, DecidableEq

/-- The values the create handler has in scope when it enters the
withFileLock("add_product") callback, the validation section having
succeeded. -/
structure AddValidated where
  name : String
  normalizedBrand : String
  normalizedType : String
  normalizedMaterial : String
  imageFilename : String
  parsedStock : Int
  parsedOriginalPrice : Int
  parsedSalePrice : Int
  deriving Repr, DecidableEq

/-- Validation section of the create handler (before the lock): presence
of all fields including the image file, membership of the trimmed brand,
type and material in the allowed sets, and non-negativity of the parsed
numbers, with salePrice defaulting to 0 when absent. -/
def addValidate (req : AddProductReq) : Option AddValidated :=
  match req.name, req.brand, req.ptype, req.material, req.image,
        req.stock, req.originalPrice with
  | some name, some brand, some ptype, some material, some img,
    some stockV, some origV =>
    if name = "" || brand = "" || ptype = "" || material = "" || img = "" then
      none
    else
      let normalizedBrand := jsTrim brand
      let normalizedType := jsTrim ptype
      let normalizedMaterial := jsTrim material
      if !(ALLOWED_BRANDS.contains normalizedBrand) then none
      else if !(ALLOWED_TYPES.contains normalizedType) then none
      else if !(ALLOWED_MATERIALS.contains normalizedMaterial) then none
      else
        let parsedSale := req.salePrice.getD 0
        if stockV < 0 || origV < 0 || parsedSale < 0 then none
        else some { name := name, normalizedBrand := normalizedBrand,
                    normalizedType := normalizedType,
                    normalizedMaterial := normalizedMaterial,
                    imageFilename := img, parsedStock := stockV,
                    parsedOriginalPrice := origV, parsedSalePrice := parsedSale }
  | _, _, _, _, _, _, _ => none

/-- The record the create handler builds and appends. -/
def mkNewProduct (v : AddValidated) : Product :=
  { name := jsTrim v.name, brand := v.normalizedBrand, ptype := v.normalizedType,
    stock := v.parsedStock,
    imageUrl := "/backend/uploads/" ++ v.imageFilename,
    originalPrice := v.parsedOriginalPrice, salePrice := v.parsedSalePrice,
    material := v.normalizedMaterial }

/-- The withFileLock("add_product") callback: fallback-read products.json,
throw on a (name, brand, material) duplicate, else append and persist. -/
def addProductLocked (v : AddValidated) (s : ServerState) :
    ServerState × AddProductResp :=
  let products := readFallback s.products
  if products.any (fun p =>
      p.name = jsTrim v.name && p.brand = v.normalizedBrand &&
      p.material = v.normalizedMaterial) then
    (s, .dupError (jsTrim v.name) v.normalizedBrand v.normalizedMaterial)
  else
    let newProduct := mkNewProduct v
    ({ s with products := .stored (products ++ [newProduct]) },
     .created newProduct)

/-- The create-product handler. -/
def addProduct (req : AddProductReq) (s : ServerState) :
    ServerState × AddProductResp :=
  match addValidate req with
  | none => (s, .badRequest)
  | some v => addProductLocked v s

/-- No two records of the list share a (name, brand, material) triple. -/
def uniqueTriplesB : List Product → Bool
  | [] => true
  | p :: rest => (!rest.any (fun q => triple q = triple p)) && uniqueTriplesB rest

/-! ### Product update (app.patch "/api/products/:name/:brand/:material",
server.js lines 381-512) -/

/-- A patch request: the decoded path parameters identify the record, the
body fields are optional.  `stock`, `originalPrice` and `salePrice` carry
the integer the corresponding body string parses to. -/
structure UpdateReq where
  name : String
  brand : String
  material : String
  stock : Option Int := none
  originalPrice : Option Int := none
  salePrice : Option Int := none
  newMaterial : Option String := none
  newName : Option String := none
  newBrand : Option String := none
  newType : Option String := none
  image : Option String := none
  deriving Repr, DecidableEq

/-- The `updates` object the patch handler accumulates. -/
structure Updates where
  stock : Option Int := none
  originalPrice : Option Int := none
  salePrice : Option Int := none
  material : Option String := none
  name : Option String := none
  brand : Option String := none
  ptype : Option String := none
  imageUrl : Option String := none
  deriving Repr, DecidableEq

/-- Whether the `updates` object has no keys (the handler rejects this). -/
def Updates.isEmpty (u : Updates) : Bool :=
  u.stock = none && u.originalPrice = none && u.salePrice = none &&
  u.material = none && u.name = none && u.brand = none &&
  u.ptype = none && u.imageUrl = none

/-- Validation section of the patch handler: each supplied field is
checked independently and added to `updates`; any failure is a 400. -/
def updateValidate (req : UpdateReq) : Option Updates :=
  if (match req.stock with | some st => decide (st < 0) | none => false) then none
  else if (match req.originalPrice with | some v => decide (v < 0) | none => false) then none
  else if (match req.salePrice with | some v => decide (v < 0) | none => false) then none
  else if (match req.newMaterial with
           | some m => !(ALLOWED_MATERIALS.contains (jsTrim m))
           | none => false) then none
  else if (match req.newName with | some n => decide (jsTrim n = "") | none => false) then none
  else if (match req.newBrand with
           | some b => !(ALLOWED_BRANDS.contains (jsTrim b))
           | none => false) then none
  else if (match req.newType with
           | some t => !(ALLOWED_TYPES.contains (jsTrim t))
           | none => false) then none
  else some { stock := req.stock, originalPrice := req.originalPrice,
              salePrice := req.salePrice,
              material := req.newMaterial.map jsTrim,
              name := req.newName.map jsTrim,
              brand := req.newBrand.map jsTrim,
              ptype := req.newType.map jsTrim,
              imageUrl := req.image.map (fun f => "/backend/uploads/" ++ f) }

/-- The JS object spread: supplied fields replace the stored ones. -/
def applyUpdates (p : Product) (u : Updates) : Product :=
  { name := u.name.getD p.name, brand := u.brand.getD p.brand,
    ptype := u.ptype.getD p.ptype, stock := u.stock.getD p.stock,
    imageUrl := u.imageUrl.getD p.imageUrl,
    originalPrice := u.originalPrice.getD p.originalPrice,
    salePrice := u.salePrice.getD p.salePrice,
    material := u.material.getD p.material }

/-- Response of the patch handler.  `updated p` is res.json(result.product);
after a zero-stock splice the handler reads products[productIndex] again,
so `updated` can carry the record that moved into the spliced slot; only
when that read is undefined does the handler send the deletion message. -/
inductive UpdateResp where
  | badRequest : UpdateResp
  | readError : UpdateResp
  | notFound : UpdateResp
  | dupError : UpdateResp
  | updated : Product → UpdateResp
  | deletedZeroStock : UpdateResp
  deriving Repr, DecidableEq

/-- The locked section of the patch handler, given the validated updates:
strict read, findIndex by the key triple, duplicate check over the other
records with the would-be key, spread-merge at the index, splice when
updates.stock is exactly 0, persist, and answer with the record now at the
index if any. -/
def updateLocked (req : UpdateReq) (u : Updates) (s : ServerState) :
    ServerState × UpdateResp :=
  match readStrict s.products with
  | none => (s, .readError)
  | some products =>
    match products.findIdx? (fun p => keyMatch p req.name req.brand req.material) with
    | none => (s, .notFound)
    | some idx =>
      match products.get? idx with
      | none => (s, .notFound)
      | some old =>
        let updatedName := u.name.getD old.name
        let updatedBrand := u.brand.getD old.brand
        let updatedMaterial := u.material.getD old.material
        if (products.enum.any (fun q =>
            q.1 ≠ idx && q.2.name = updatedName && q.2.brand = updatedBrand &&
            q.2.material = updatedMaterial)) then
          (s, .dupError)
        else
          let products1 := products.set idx (applyUpdates old u)
          let products2 := if u.stock = some 0 then products1.eraseIdx idx
                           else products1
          ({ s with products := .stored products2 },
           match products2.get? idx with
           | some p => .updated p
           | none => .deletedZeroStock)

/-- The patch handler. -/
def updateProduct (req : UpdateReq) (s : ServerState) :
    ServerState × UpdateResp :=
  match updateValidate req with
  | none => (s, .badRequest)
  | some u =>
    if u.isEmpty then (s, .badRequest)
    else updateLocked req u s

/-! ### Product delete (app.delete "/api/products/:name/:brand/:material",
server.js lines 515-548) -/

/-- Response of the delete handler. -/
inductive DeleteResp where
  | serverError : DeleteResp
  | notFound : DeleteResp
  | deleted : DeleteResp
  deriving Repr, DecidableEq

/-- The delete handler: strict read, findIndex, splice, persist. -/
def deleteProduct (n b m : String) (s : ServerState) :
    ServerState × DeleteResp :=
  match readStrict s.products with
  | none => (s, .serverError)
  | some products =>
    match products.findIdx? (fun p => keyMatch p n b m) with
    | none => (s, .notFound)
    | some idx =>
      ({ s with products := .stored (products.eraseIdx idx) }, .deleted)

/-! ### Cart add (app.post "/api/cart", server.js lines 551-597) -/

/-- Body of an add-to-cart request; absent fields are `none`. -/
structure CartAddReq where
  guestId : Option String
  name : Option String
  brand : Option String
  material : Option String
  quantity : Option Int
  deriving Repr, DecidableEq

/-- Response of the cart handlers. -/
inductive CartResp where
  | badRequest : CartResp
  | serverError : CartResp
  | notFound : CartResp
  | insufficientStock : CartResp
  | okCart : Cart → CartResp
  deriving Repr, DecidableEq

/-- The guestCart.items.find update: increment the quantity of the first
line matching the key, or report `none` when no line matches (findIndex
semantics of Array.prototype.find over the items array). -/
def bumpFirstItem (n b m : String) (q : Int) :
    List CartItem → Option (List CartItem)
  | [] => none
  | it :: rest =>
    if it.name = n && it.brand = b && it.material = m then
      some ({ it with quantity := it.quantity + q } :: rest)
    else
      match bumpFirstItem n b m q rest with
      | none => none
      | some rest' => some (it :: rest')

/-- The item merge of the cart callback: bump the matching line if one
exists, else push a new line at the end. -/
def addLine (n b m : String) (q : Int) (items : List CartItem) : List CartItem :=
  match bumpFirstItem n b m q items with
  | some items' => items'
  | none => items ++ [{ name := n, brand := b, material := m, quantity := q }]

/-- Update the first cart whose guestId matches, returning the rewritten
list and the mutated cart (the handler sends the mutated cart back). -/
def updateFirstCart (g n b m : String) (q : Int) :
    List Cart → Option (List Cart × Cart)
  | [] => none
  | c :: rest =>
    if c.guestId = g then
      let c' := { c with items := addLine n b m q c.items }
      some (c' :: rest, c')
    else
      match updateFirstCart g n b m q rest with
      | none => none
      | some (rest', c') => some (c :: rest', c')

/-- The withFileLock("cart") callback: fallback-read carts.json, find or
create the guest cart, merge the line, persist. -/
def cartLocked (g n b m : String) (q : Int) (s : ServerState) :
    ServerState × CartResp :=
  let carts := readFallback s.carts
  match updateFirstCart g n b m q carts with
  | some (carts', c') => ({ s with carts := .stored carts' }, .okCart c')
  | none =>
    let newCart : Cart :=
      { guestId := g, items := [{ name := n, brand := b, material := m, quantity := q }] }
    ({ s with carts := .stored (carts ++ [newCart]) }, .okCart newCart)

/-- The add-to-cart handler: field presence and quantity checks, an
unlocked strict read of products.json for the product and stock check,
then the locked cart merge. -/
def addToCart (req : CartAddReq) (s : ServerState) : ServerState × CartResp :=
  match req.guestId, req.name, req.brand, req.material, req.quantity with
  | some g, some n, some b, some m, some q =>
    if g = "" || n = "" || b = "" || m = "" || q = 0 || q < 1 then
      (s, .badRequest)
    else
      match readStrict s.products with
      | none => (s, .serverError)
      | some products =>
        match products.find? (fun p => keyMatch p n b m) with
        | none => (s, .notFound)
        | some product =>
          if product.stock < q then (s, .insufficientStock)
          else cartLocked g n b m q s
  | _, _, _, _, _ => (s, .badRequest)

/-! ### Cart get (app.get "/api/cart", server.js lines 600-615) -/

/-- Response of the get-cart handler. -/
inductive CartGetResp where
  | badRequest : CartGetResp
  | serverError : CartGetResp
  | found : Cart → CartGetResp
  deriving Repr, DecidableEq

/-- The get-cart handler: requires a guestId, strict read of carts.json,
then the found cart or the empty shape with the same guestId. -/
def getCart (guestId : Option String) (s : ServerState) : CartGetResp :=
  match guestId with
  | none => .badRequest
  | some g =>
    if g = "" then .badRequest
    else
      match readStrict s.carts with
      | none => .serverError
      | some carts =>
        .found ((carts.find? (fun c => c.guestId = g)).getD
          { guestId := g, items := [] })

/-! ### Bulk import (app.post "/api/upload-excel", server.js lines 181-284) -/

/-- One parsed spreadsheet row.  Text cells are `none` when empty, numeric
cells carry their integer value.  JS truthiness on a cell: an empty cell
and the empty string are falsy, and so is the number 0 (which is why a
Stock cell of 0 fails the presence check while OriginalPrice, compared
against null, does not). -/
structure ExcelRow where
  name : Option String
  brand : Option String
  ptype : Option String
  stock : Option Int
  originalPrice : Option Int
  salePrice : Option Int
  image : Option String
  material : Option String
  deriving Repr, DecidableEq

/-- JS truthiness of a text cell. -/
def cellTruthyS : Option String → Bool
  | some s => s ≠ ""
  | none => false

/-- JS truthiness of a numeric cell. -/
def cellTruthyN : Option Int → Bool
  | some v => v ≠ 0
  | none => false

/-- The per-row validation of the upload handler: presence (with
OriginalPrice only compared against null), allowed-set membership of the
trimmed brand, type and material, and the numeric checks, where
parseFloat(SalePrice) of an empty cell is NaN.  `true` means the row is
rejected and with it the whole batch. -/
def rowError (r : ExcelRow) : Bool :=
  if !cellTruthyS r.name || !cellTruthyS r.brand || !cellTruthyS r.ptype ||
     !cellTruthyN r.stock || r.originalPrice = none ||
     !cellTruthyS r.material || !cellTruthyS r.image then true
  else if !(ALLOWED_BRANDS.contains (jsTrim (r.brand.getD ""))) then true
  else if !(ALLOWED_TYPES.contains (jsTrim (r.ptype.getD ""))) then true
  else if !(ALLOWED_MATERIALS.contains (jsTrim (r.material.getD ""))) then true
  else
    match r.stock, r.originalPrice, r.salePrice with
    | some st, some op, some sp => st < 0 || op < 0 || sp < 0
    | _, _, _ => true

/-- The record a row maps to inside the locked section. -/
def rowToProduct (r : ExcelRow) : Product :=
  { name := jsTrim (r.name.getD ""), brand := jsTrim (r.brand.getD ""),
    ptype := jsTrim (r.ptype.getD ""), stock := r.stock.getD 0,
    imageUrl := jsTrim (r.image.getD ""),
    originalPrice := r.originalPrice.getD 0, salePrice := r.salePrice.getD 0,
    material := jsTrim (r.material.getD "") }

/-- Response of the upload handler. -/
inductive UploadResp where
  | badRequest : UploadResp
  | dupError : UploadResp
  | processed : List Product → UploadResp
  deriving Repr, DecidableEq

/-- The upload handler: reject the batch at the first invalid row before
the lock; under the lock fallback-read products.json, map the rows, throw
at the first incoming row colliding with an existing record on the key
triple (incoming rows are never compared with each other), else append all
rows and persist once. -/
def uploadExcel (rows : List ExcelRow) (s : ServerState) :
    ServerState × UploadResp :=
  if rows.any rowError then (s, .badRequest)
  else
    let products := readFallback s.products
    let newProducts := rows.map rowToProduct
    if newProducts.any (fun np => products.any (fun p =>
        p.name = np.name && p.brand = np.brand && p.material = np.material)) then
      (s, .dupError)
    else
      ({ s with products := .stored (products ++ newProducts) },
       .processed newProducts)

/-! ### Order creation (app.post "/api/orders", server.js lines 653-734) -/

/-- Body of a create-order request.  Required string fields are modelled
as plain strings with "" standing for an absent or empty (falsy) value,
which is exactly what the presence checks test; the card fields are
optional. -/
structure OrderReq where
  guestId : String
  fullName : String
  phone : String
  address : String
  paymentMethod : String
  cardNumber : Option String := none
  expiryDate : Option String := none
  cvv : Option String := none
  cartItems : List CartItem
  totalPrice : Int
  deriving Repr, DecidableEq

/-- Response of the order handler. -/
inductive OrderResp where
  | badRequest : OrderResp
  | notFound : OrderResp
  | insufficientStock : OrderResp
  | serverError : OrderResp
  | created : OrderRec → OrderResp
  deriving Repr, DecidableEq

/-- Per-item pre-check of the order handler: item field presence and
quantity at least 1, the product exists in the catalog snapshot, and its
stock covers the ordered quantity. -/
def itemCheck (products : List Product) (it : CartItem) : Option OrderResp :=
  if it.name = "" || it.brand = "" || it.material = "" ||
     it.quantity = 0 || it.quantity < 1 then
    some .badRequest
  else
    match products.find? (fun p => keyMatch p it.name it.brand it.material) with
    | none => some .notFound
    | some p => if p.stock < it.quantity then some .insufficientStock else none

/-- The pre-check loop over cart items, returning the first failure. -/
def itemsCheck (products : List Product) : List CartItem → Option OrderResp
  | [] => none
  | it :: rest =>
    match itemCheck products it with
    | some e => some e
    | none => itemsCheck products rest

/-- The unlocked validation section of the order handler, in source
order: top-level field presence, card details when paying by card, the
totalPrice check, then the per-item loop against the catalog snapshot. -/
def orderValidate (req : OrderReq) (products : List Product) : Option OrderResp :=
  if req.guestId = "" || req.fullName = "" || req.phone = "" ||
     req.address = "" || req.paymentMethod = "" || req.cartItems = [] ||
     req.totalPrice = 0 then
    some .badRequest
  else if req.paymentMethod = "card" &&
      (!cellTruthyS req.cardNumber || !cellTruthyS req.expiryDate ||
       !cellTruthyS req.cvv) then
    some .badRequest
  else if req.totalPrice ≤ 0 then some .badRequest
  else itemsCheck products req.cartItems

/-- One step of the locked order loop: findIndex on the key triple,
decrement the stock in place, splice the record when the stock lands
exactly on 0.  `none` models the TypeError thrown when findIndex returns
-1 (the record was already spliced by an earlier item), which aborts the
callback before anything is written. -/
def updateFirstMatch (it : CartItem) : List Product → Option (List Product)
  | [] => none
  | p :: rest =>
    if keyMatch p it.name it.brand it.material then
      let p' := { p with stock := p.stock - it.quantity }
      some (if p'.stock = 0 then rest else p' :: rest)
    else
      match updateFirstMatch it rest with
      | none => none
      | some rest' => some (p :: rest')

/-- The locked order loop over all cart items. -/
def applyOrderItems : List CartItem → List Product → Option (List Product)
  | [], products => some products
  | it :: rest, products =>
    match updateFirstMatch it products with
    | none => none
    | some products' => applyOrderItems rest products'

/-- The order record the handler appends, stamped with the current time. -/
def mkOrder (req : OrderReq) (now : String) : OrderRec :=
  { guestId := req.guestId, fullName := req.fullName, phone := req.phone,
    address := req.address, paymentMethod := req.paymentMethod,
    cardDetails :=
      if req.paymentMethod = "card" then
        some { cardNumber := req.cardNumber.getD "",
               expiryDate := req.expiryDate.getD "", cvv := req.cvv.getD "" }
      else none,
    cartItems := req.cartItems, totalPrice := req.totalPrice,
    orderDate := now }

/-- The order handler: strict read of the catalog snapshot, the unlocked
validation, then the withFileLock("create_order") callback, which
re-reads products.json, runs the decrement loop, writes products.json,
fallback-reads carts.json and drops every cart of the ordering guest,
writes carts.json, fallback-reads orders.json, appends the new record and
writes orders.json.  A TypeError in the loop aborts before any write. -/
def createOrder (req : OrderReq) (now : String) (s : ServerState) :
    ServerState × OrderResp :=
  match readStrict s.products with
  | none => (s, .serverError)
  | some products =>
    match orderValidate req products with
    | some e => (s, e)
    | none =>
      match applyOrderItems req.cartItems products with
      | none => (s, .serverError)
      | some products' =>
        let carts' := (readFallback s.carts).filter
          (fun c => c.guestId ≠ req.guestId)
        let newOrder := mkOrder req now
        ({ products := .stored products', carts := .stored carts',
           orders := .stored (readFallback s.orders ++ [newOrder]) },
         .created newOrder)

/-! ### The versioned catalog variant (modelled from the spec)

The specification (sections 2, 3, 4.2 and 9) designates as authoritative
the most complete of the repository server variants, the one with a
generated `id`, a `version` field and optimistic concurrency.  That
variant is not among the source files under src/ (both files there are
the earlier composite-key variants without any version field), so the
versioned Update is modelled here from the words of spec section 4.2. -/

/-- Modelled from the spec: a product record of the versioned variant,
which the sources under src/ do not contain; per spec section 3 it adds a
stable `id` and an integer `version` to the catalog record. -/
structure VProduct where
  id : String
  name : String
  brand : String
  ptype : String
  material : String
  imageUrl : String
  stock : Int
  originalPrice : Int
  salePrice : Int
  version : Int
  deriving Repr, DecidableEq

/-- Modelled from the spec: the partial fields of a versioned Update. -/
structure VUpdates where
  name : Option String := none
  brand : Option String := none
  ptype : Option String := none
  material : Option String := none
  imageUrl : Option String := none
  stock : Option Int := none
  originalPrice : Option Int := none
  salePrice : Option Int := none
  deriving Repr, DecidableEq

/-- Modelled from the spec: merge the supplied fields over the existing
record and increment its version. -/
def vMerge (p : VProduct) (u : VUpdates) : VProduct :=
  { id := p.id, name := u.name.getD p.name, brand := u.brand.getD p.brand,
    ptype := u.ptype.getD p.ptype, material := u.material.getD p.material,
    imageUrl := u.imageUrl.getD p.imageUrl, stock := u.stock.getD p.stock,
    originalPrice := u.originalPrice.getD p.originalPrice,
    salePrice := u.salePrice.getD p.salePrice, version := p.version + 1 }

/-- Outcome of the versioned Update. -/
inductive VUpdateResult where
  | notFound : VUpdateResult
  | conflict : VUpdateResult
  | updated : VProduct → VUpdateResult
  | deletedZeroStock : VUpdateResult
  deriving Repr, DecidableEq

/-- Locate the record with the given id (first match). -/
def vFind (id : String) : List VProduct → Option VProduct
  | [] => none
  | p :: rest => if p.id = id then some p else vFind id rest

/-- Replace the first record with the given id. -/
def vReplace (id : String) (p' : VProduct) : List VProduct → List VProduct
  | [] => []
  | p :: rest => if p.id = id then p' :: rest else p :: vReplace id p' rest

/-- Remove the first record with the given id. -/
def vRemove (id : String) : List VProduct → List VProduct
  | [] => []
  | p :: rest => if p.id = id then rest else p :: vRemove id rest

/-- Modelled from the spec (section 4.2 Update): under the lock locate the
record by id; if an expectedVersion was supplied and differs from the
stored version, fail with a conflict and change nothing; otherwise merge
the supplied fields, increment the version, and either delete the record
when the resulting stock is exactly 0 (reporting the deletion) or persist
and return the updated record. -/
def updateVersioned (id : String) (u : VUpdates) (expectedVersion : Option Int)
    (products : List VProduct) : List VProduct × VUpdateResult :=
  match vFind id products with
  | none => (products, .notFound)
  | some p =>
    match expectedVersion with
    | some ev =>
      if ev ≠ p.version then (products, .conflict)
      else
        let merged := vMerge p u
        if merged.stock = 0 then (vRemove id products, .deletedZeroStock)
        else (vReplace id merged products, .updated merged)
    | none =>
      let merged := vMerge p u
      if merged.stock = 0 then (vRemove id products, .deletedZeroStock)
      else (vReplace id merged products, .updated merged)

/-- Modelled from the spec (section 4.2 Create): the record a successful
Create appends, returned including version = 0. -/
def vCreateRecord (id n b t m img : String) (st op sp : Int) : VProduct :=
  { id := id, name := n, brand := b, ptype := t, material := m,
    imageUrl := img, stock := st, originalPrice := op, salePrice := sp,
    version := 0 }

/-! ### Claim-side vocabulary -/

/-- A cart item fails stock validation against a catalog: no record
matches its key triple, or the matching record's stock is below the
ordered quantity. -/
def stockFailB (products : List Product) (it : CartItem) : Bool :=
  match products.find? (fun p => keyMatch p it.name it.brand it.material) with
  | none => true
  | some p => p.stock < it.quantity

/-- The (name, brand, material) key of a cart item. -/
def itemKey (it : CartItem) : String × String × String :=
  (it.name, it.brand, it.material)

/-- No two items of the list share a key triple. -/
def distinctItemKeysB : List CartItem → Bool
  | [] => true
  | it :: rest =>
    (!rest.any (fun j => itemKey j = itemKey it)) && distinctItemKeysB rest

/-- The cart item that orders a given record, if any. -/
def itemFor (items : List CartItem) (p : Product) : Option CartItem :=
  items.find? (fun it => keyMatch p it.name it.brand it.material)

/-- The catalog the transactional phase of order creation is specified to
produce: each ordered record's stock decremented by the ordered quantity,
records whose resulting stock is exactly 0 removed, all others kept. -/
def orderOutcome (items : List CartItem) (products : List Product) :
    List Product :=
  products.filterMap (fun p =>
    match itemFor items p with
    | none => some p
    | some it =>
      if p.stock - it.quantity = 0 then none
      else some { p with stock := p.stock - it.quantity })

/-- The items of the first cart of the given guest, empty if none. -/
def itemsOfGuest (g : String) (carts : List Cart) : List CartItem :=
  ((carts.find? (fun c => c.guestId = g)).map Cart.items).getD []

/-- Well-formed cart items: pairwise distinct key triples, every
quantity at least 1. -/
def wfItemsB (items : List CartItem) : Bool :=
  distinctItemKeysB items && items.all (fun it => 1 ≤ it.quantity)

/-- Every cart of the list has well-formed items. -/
def cartsWFB (carts : List Cart) : Bool :=
  carts.all (fun c => wfItemsB c.items)

/-- The line merge the cart claim describes: when some line matches the
key triple, that line's quantity grows by q; otherwise a new line is
appended. -/
def mergedItemsSpec (n b m : String) (q : Int) (items : List CartItem) :
    List CartItem :=
  if items.any (fun it => it.name = n && it.brand = b && it.material = m) then
    items.map (fun it =>
      if it.name = n && it.brand = b && it.material = m then
        { it with quantity := it.quantity + q }
      else it)
  else items ++ [{ name := n, brand := b, material := m, quantity := q }]

/-! ### Concrete fixtures used by witnesses and counterexamples -/

/-- A sample catalog record with valid brand, type and material. -/
def ringA : Product :=
  { name := "Ring A", brand := "Cartier", ptype := "Nhẫn", stock := 5,
    imageUrl := "/backend/uploads/a.jpg", originalPrice := 1000,
    salePrice := 900, material := "18K Gold" }

/-- A second sample record with a different key triple. -/
def ringB : Product :=
  { name := "Ring B", brand := "Bvlgari", ptype := "Vòng tay", stock := 3,
    imageUrl := "/backend/uploads/b.jpg", originalPrice := 2000,
    salePrice := 0, material := "Platinum" }

/-- A server state holding the given catalog and empty carts and orders. -/
def baseState (ps : List Product) : ServerState :=
  { products := .stored ps, carts := .stored [], orders := .stored [] }

/-- A create-product request carrying the data of ringA. -/
def ringAReq : AddProductReq :=
  { name := some "Ring A", brand := some "Cartier", ptype := some "Nhẫn",
    material := some "18K Gold", stock := some 5, originalPrice := some 1000,
    salePrice := some 900, image := some "a.jpg" }

/-- A valid spreadsheet row. -/
def importRow : ExcelRow :=
  { name := some "Ring A", brand := some "Cartier", ptype := some "Nhẫn",
    stock := some 5, originalPrice := some 1000, salePrice := some 900,
    image := some "a.jpg", material := some "18K Gold" }

/-- The record importRow maps to. -/
def importedA : Product :=
  { name := "Ring A", brand := "Cartier", ptype := "Nhẫn", stock := 5,
    imageUrl := "a.jpg", originalPrice := 1000, salePrice := 900,
    material := "18K Gold" }

/-- importRow with a brand outside the allowed set. -/
def badBrandRow : ExcelRow :=
  { importRow with brand := some "Nike" }

/-- An order asking for 10 units of ringB, which has stock 3. -/
def insufficientOrderReq : OrderReq :=
  { guestId := "g1", fullName := "Nguyen Van A", phone := "0900000000",
    address := "HCMC", paymentMethod := "cod",
    cartItems :=
      [{ name := "Ring B", brand := "Bvlgari", material := "Platinum",
         quantity := 10 }],
    totalPrice := 2000 }

/-- A valid order for 3 units of ringA (stock 5) and 3 of ringB (stock 3). -/
def okOrderReq : OrderReq :=
  { guestId := "g1", fullName := "Nguyen Van A", phone := "0900000000",
    address := "HCMC", paymentMethod := "cod",
    cartItems :=
      [{ name := "Ring A", brand := "Cartier", material := "18K Gold",
         quantity := 3 },
       { name := "Ring B", brand := "Bvlgari", material := "Platinum",
         quantity := 3 }],
    totalPrice := 8700 }

/-- A server state with catalog [ringA, ringB] and two guest carts. -/
def twoCartState : ServerState :=
  { products := .stored [ringA, ringB],
    carts := .stored
      [{ guestId := "g1", items :=
          [{ name := "Ring A", brand := "Cartier", material := "18K Gold",
             quantity := 3 }] },
       { guestId := "g2", items :=
          [{ name := "Ring B", brand := "Bvlgari", material := "Platinum",
             quantity := 1 }] }],
    orders := .stored [] }

/-- An order whose two cart items name the same record (ringB, stock 3),
each within stock on its own. -/
def dupItemsOrderReq : OrderReq :=
  { guestId := "g1", fullName := "Nguyen Van A", phone := "0900000000",
    address := "HCMC", paymentMethod := "cod",
    cartItems :=
      [{ name := "Ring B", brand := "Bvlgari", material := "Platinum",
         quantity := 3 },
       { name := "Ring B", brand := "Bvlgari", material := "Platinum",
         quantity := 3 }],
    totalPrice := 4000 }

/-! ## Theorems -/

/-- C1: for every versioned Update call that supplies an expectedVersion,
a mismatch with the stored version fails with a conflict and leaves the
catalog unchanged; a match merges the supplied fields over the stored
record and increments its version by one (with the zero-stock outcome
deleting the merged record, per the soft-delete rule); and every record a
Create appends carries version 0. -/
theorem c1_update_versioned (id : String) (u : VUpdates) (ev : Int)
    (products : List VProduct) (p : VProduct)
    (hfind : vFind id products = some p) :
    (ev ≠ p.version →
      updateVersioned id u (some ev) products = (products, .conflict)) ∧
    (ev = p.version → ∀ merged,
      merged = vMerge p u →
      merged.version = p.version + 1 ∧
      merged.name = u.name.getD p.name ∧
      merged.brand = u.brand.getD p.brand ∧
      merged.material = u.material.getD p.material ∧
      merged.stock = u.stock.getD p.stock ∧
      merged.originalPrice = u.originalPrice.getD p.originalPrice ∧
      merged.salePrice = u.salePrice.getD p.salePrice ∧
      updateVersioned id u (some ev) products =
        (if merged.stock = 0 then (vRemove id products, .deletedZeroStock)
         else (vReplace id merged products, .updated merged))) ∧
    (∀ idv n b t m img st op sp,
      (vCreateRecord idv n b t m img st op sp).version = 0) := by
  refine ⟨?_, ?_, ?_⟩
  · intro hne
    simp [updateVersioned, hfind, hne]
  · rintro rfl merged rfl
    refine ⟨rfl, rfl, rfl, rfl, rfl, rfl, rfl, ?_⟩
    simp [updateVersioned, hfind]
  · intro idv n b t m img st op sp
    rfl

/-- C1 witness: on the one-record catalog with stored version 2, an
expectedVersion of 1 conflicts and changes nothing, while an
expectedVersion of 2 applies the stock update and bumps the version to 3. -/
theorem c1_update_versioned_witness :
    updateVersioned "NC0001" { stock := some 5 } (some 1)
      [{ id := "NC0001", name := "Ring A", brand := "Cartier", ptype := "Nhẫn",
         material := "18K Gold", imageUrl := "u", stock := 7,
         originalPrice := 1000, salePrice := 900, version := 2 }] =
      ([{ id := "NC0001", name := "Ring A", brand := "Cartier", ptype := "Nhẫn",
          material := "18K Gold", imageUrl := "u", stock := 7,
          originalPrice := 1000, salePrice := 900, version := 2 }], .conflict) ∧
    updateVersioned "NC0001" { stock := some 5 } (some 2)
      [{ id := "NC0001", name := "Ring A", brand := "Cartier", ptype := "Nhẫn",
         material := "18K Gold", imageUrl := "u", stock := 7,
         originalPrice := 1000, salePrice := 900, version := 2 }] =
      ([{ id := "NC0001", name := "Ring A", brand := "Cartier", ptype := "Nhẫn",
          material := "18K Gold", imageUrl := "u", stock := 5,
          originalPrice := 1000, salePrice := 900, version := 3 }],
       .updated { id := "NC0001", name := "Ring A", brand := "Cartier",
                  ptype := "Nhẫn", material := "18K Gold", imageUrl := "u",
                  stock := 5, originalPrice := 1000, salePrice := 900,
                  version := 3 }) := by
  constructor
  · exact (c1_update_versioned "NC0001" { stock := some 5 } 1
      [{ id := "NC0001", name := "Ring A", brand := "Cartier", ptype := "Nhẫn",
         material := "18K Gold", imageUrl := "u", stock := 7,
         originalPrice := 1000, salePrice := 900, version := 2 }]
      { id := "NC0001", name := "Ring A", brand := "Cartier", ptype := "Nhẫn",
        material := "18K Gold", imageUrl := "u", stock := 7,
        originalPrice := 1000, salePrice := 900, version := 2 } rfl).1
      (by decide)
  · have h := ((c1_update_versioned "NC0001" { stock := some 5 } 2
      [{ id := "NC0001", name := "Ring A", brand := "Cartier", ptype := "Nhẫn",
         material := "18K Gold", imageUrl := "u", stock := 7,
         originalPrice := 1000, salePrice := 900, version := 2 }]
      { id := "NC0001", name := "Ring A", brand := "Cartier", ptype := "Nhẫn",
        material := "18K Gold", imageUrl := "u", stock := 7,
        originalPrice := 1000, salePrice := 900, version := 2 } rfl).2.1
      rfl _ rfl).2.2.2.2.2.2.2
    simpa using h

/-- C10: removing a product — via the delete handler or via a zero-stock
update — modifies only the products store: the carts and orders files of
the resulting state are exactly those of the initial state, for every
request and every state, so cart lines naming the removed key triple
survive in their carts. -/
theorem c10_remove_product_frame (n b m : String) (req : UpdateReq)
    (s : ServerState) :
    (deleteProduct n b m s).1.carts = s.carts ∧
    (deleteProduct n b m s).1.orders = s.orders ∧
    (updateProduct req s).1.carts = s.carts ∧
    (updateProduct req s).1.orders = s.orders ∧
    readFallback (deleteProduct n b m s).1.carts = readFallback s.carts ∧
    readFallback (updateProduct req s).1.carts = readFallback s.carts := by
  have hdel : (deleteProduct n b m s).1.carts = s.carts ∧
      (deleteProduct n b m s).1.orders = s.orders := by
    unfold deleteProduct
    constructor <;> (repeat' split) <;> rfl
  have hupd : (updateProduct req s).1.carts = s.carts ∧
      (updateProduct req s).1.orders = s.orders := by
    unfold updateProduct updateLocked
    constructor <;> (repeat' ((try dsimp only); split)) <;> rfl
  exact ⟨hdel.1, hdel.2, hupd.1, hupd.2, by rw [hdel.1], by rw [hupd.1]⟩

/-- C8: for every non-empty owner identifier, once the carts store holds a
well-formed array (which the server initializes at startup), reading the
cart is never an error: it answers with the stored cart when one matches
the owner and with the empty cart shape for that owner otherwise. -/
theorem c8_get_cart_never_fails (g : String) (s : ServerState)
    (carts : List Cart) (hg : g ≠ "") (h : readStrict s.carts = some carts) :
    (∀ c, carts.find? (fun c' => c'.guestId = g) = some c →
      getCart (some g) s = .found c) ∧
    (carts.find? (fun c' => c'.guestId = g) = none →
      getCart (some g) s = .found { guestId := g, items := [] }) ∧
    getCart (some g) s ≠ .badRequest ∧
    getCart (some g) s ≠ .serverError := by
  refine ⟨?_, ?_, ?_, ?_⟩
  · intro c hc
    simp [getCart, hg, h, hc]
  · intro hc
    simp [getCart, hg, h, hc]
  · simp [getCart, hg, h]
  · simp [getCart, hg, h]

/-- C8 witness: on the startup state with an empty carts array, the cart
of guest g1 reads back as the empty cart shape, not an error. -/
theorem c8_get_cart_never_fails_witness :
    getCart (some "g1") (baseState [ringA]) =
      .found { guestId := "g1", items := [] } :=
  (c8_get_cart_never_fails "g1" (baseState [ringA]) [] (by decide) rfl).2.1 rfl

/-- C5: updating the record (Ring A, Cartier, 18K Gold) with stock 0 on
the two-record catalog [ringA, ringB] removes the record from the
persisted array — subsequent List reads no longer contain its key triple —
but the response is the record ringB (the element that slid into the
spliced index), not the zero-stock deletion report the handler was written
to send. -/
theorem c5_zero_stock_update_bug :
    updateProduct
      { name := "Ring A", brand := "Cartier", material := "18K Gold",
        stock := some 0 } (baseState [ringA, ringB]) =
      (baseState [ringB], .updated ringB) ∧
    (readFallback (updateProduct
      { name := "Ring A", brand := "Cartier", material := "18K Gold",
        stock := some 0 } (baseState [ringA, ringB])).1.products).all
      (fun p => !keyMatch p "Ring A" "Cartier" "18K Gold") = true ∧
    UpdateResp.updated ringB ≠ UpdateResp.deletedZeroStock := by
  refine ⟨?_, ?_, ?_⟩ <;> decide

/-- C7 counterexample: with products.json present but not a well-formed
array, the create operation does not surface a data-corruption error; it
proceeds as if the store were empty and persists a one-element array,
truncating whatever was there. -/
theorem c7_corrupt_read_counterexample :
    addProduct ringAReq
      { products := .corrupt, carts := .stored [], orders := .stored [] } =
      ({ products := .stored [ringA], carts := .stored [],
         orders := .stored [] }, .created ringA) := by
  decide

/-- C7 amended: the operations that read with a try/catch fallback
(create and bulk import here) treat an absent file and malformed content
alike as an empty array and proceed — responding exactly as they would on
an empty stored array — while the patch and delete handlers, which read
without a fallback, fail on an absent file and on malformed content
alike instead of proceeding. -/
theorem c7_read_path_amended (req : AddProductReq) (rows : List ExcelRow)
    (c : StoreFile Cart) (o : StoreFile OrderRec) (n b m : String)
    (ureq : UpdateReq) (u : Updates) :
    (addProduct req { products := .corrupt, carts := c, orders := o }).2 =
      (addProduct req { products := .stored [], carts := c, orders := o }).2 ∧
    (addProduct req { products := .absent, carts := c, orders := o }).2 =
      (addProduct req { products := .stored [], carts := c, orders := o }).2 ∧
    (uploadExcel rows { products := .corrupt, carts := c, orders := o }).2 =
      (uploadExcel rows { products := .stored [], carts := c, orders := o }).2 ∧
    (uploadExcel rows { products := .absent, carts := c, orders := o }).2 =
      (uploadExcel rows { products := .stored [], carts := c, orders := o }).2 ∧
    deleteProduct n b m { products := .corrupt, carts := c, orders := o } =
      ({ products := .corrupt, carts := c, orders := o }, .serverError) ∧
    deleteProduct n b m { products := .absent, carts := c, orders := o } =
      ({ products := .absent, carts := c, orders := o }, .serverError) ∧
    (updateValidate ureq = some u → u.isEmpty = false →
      updateProduct ureq { products := .corrupt, carts := c, orders := o } =
        ({ products := .corrupt, carts := c, orders := o }, .readError) ∧
      updateProduct ureq { products := .absent, carts := c, orders := o } =
        ({ products := .absent, carts := c, orders := o }, .readError)) := by
  refine ⟨?_, ?_, ?_, ?_, rfl, rfl, ?_⟩
  · cases h : addValidate req <;> simp [addProduct, h, addProductLocked, readFallback]
  · cases h : addValidate req <;> simp [addProduct, h, addProductLocked, readFallback]
  · cases h : rows.any rowError
    · cases hd : (rows.map rowToProduct).any (fun np => ([] : List Product).any
          (fun p => p.name = np.name && p.brand = np.brand &&
            p.material = np.material)) <;>
        simp [uploadExcel, h, hd, readFallback]
    · simp [uploadExcel, h]
  · cases h : rows.any rowError
    · cases hd : (rows.map rowToProduct).any (fun np => ([] : List Product).any
          (fun p => p.name = np.name && p.brand = np.brand &&
            p.material = np.material)) <;>
        simp [uploadExcel, h, hd, readFallback]
    · simp [uploadExcel, h]
  · intro hv he
    simp [updateProduct, hv, he, updateLocked, readStrict]

/-- C7 witness for the amended statement, at a concrete request on each
branch: the fallback readers respond on a corrupt store exactly as on the
empty store, and the strict readers fail. -/
theorem c7_read_path_amended_witness :
    (addProduct ringAReq
      { products := .corrupt, carts := .stored [], orders := .stored [] }).2 =
      (addProduct ringAReq
        { products := .stored [], carts := .stored [], orders := .stored [] }).2 ∧
    updateProduct
      { name := "Ring A", brand := "Cartier", material := "18K Gold",
        stock := some 1 }
      { products := .corrupt, carts := .stored [], orders := .stored [] } =
      ({ products := .corrupt, carts := .stored [], orders := .stored [] },
       .readError) := by
  have h := c7_read_path_amended ringAReq [] (.stored []) (.stored [])
    "x" "y" "z"
    { name := "Ring A", brand := "Cartier", material := "18K Gold",
      stock := some 1 }
    { stock := some 1 }
  exact ⟨h.1, (h.2.2.2.2.2.2 rfl rfl).1⟩

/-- C6 counterexample: a batch of two identical valid rows on an empty
catalog is accepted, both rows are inserted, and the persisted catalog
violates key-triple uniqueness — the batch is not rejected for the
sibling collision. -/
theorem c6_sibling_duplicate_counterexample :
    (importRow.name = importRow.name) ∧
    uploadExcel [importRow, importRow] (baseState []) =
      ({ products := .stored [importedA, importedA], carts := .stored [],
         orders := .stored [] }, .processed [importedA, importedA]) ∧
    uniqueTriplesB (readFallback
      (uploadExcel [importRow, importRow] (baseState [])).1.products) = false := by
  refine ⟨rfl, ?_, ?_⟩ <;> decide

/-- C6 amended: the batch is rejected with nothing inserted when any row
fails the field-presence, allowed-value or numeric checks, or when any
incoming row collides with an existing catalog record on the key triple;
otherwise all rows — including sibling duplicates within the batch, which
are not checked against each other — are appended in one persist. -/
theorem c6_bulk_import_amended (rows : List ExcelRow) (s : ServerState) :
    (rows.any rowError = true → uploadExcel rows s = (s, .badRequest)) ∧
    (rows.any rowError = false →
      ((rows.map rowToProduct).any (fun np => (readFallback s.products).any
          (fun p => p.name = np.name && p.brand = np.brand &&
            p.material = np.material)) = true →
        uploadExcel rows s = (s, .dupError)) ∧
      ((rows.map rowToProduct).any (fun np => (readFallback s.products).any
          (fun p => p.name = np.name && p.brand = np.brand &&
            p.material = np.material)) = false →
        uploadExcel rows s =
          ({ s with
             products := StoreFile.stored
               (readFallback s.products ++ rows.map rowToProduct) },
           .processed (rows.map rowToProduct)))) := by
  refine ⟨fun h => ?_, fun h => ⟨fun hd => ?_, fun hd => ?_⟩⟩
  · simp [uploadExcel, h]
  · simp [uploadExcel, h, hd]
  · simp [uploadExcel, h, hd]

/-- C6 witness for the amended statement: a batch whose single row has a
brand outside the allowed set is rejected with the state unchanged, and
the two-identical-row batch on the empty catalog is appended whole. -/
theorem c6_bulk_import_amended_witness :
    uploadExcel [badBrandRow] (baseState [ringA]) =
      (baseState [ringA], .badRequest) ∧
    uploadExcel [importRow, importRow] (baseState []) =
      ({ baseState [] with
         products := StoreFile.stored
           (readFallback (baseState []).products ++
             [importRow, importRow].map rowToProduct) },
       .processed ([importRow, importRow].map rowToProduct)) := by
  constructor
  · exact (c6_bulk_import_amended [badBrandRow]
      (baseState [ringA])).1 (by decide)
  · exact ((c6_bulk_import_amended [importRow, importRow] (baseState [])).2
      (by decide)).2 (by decide)

/-- Appending a record that collides with no element of a
unique-key list keeps the keys unique. -/
theorem uniqueTriplesB_append_single (l : List Product) (x : Product)
    (hl : uniqueTriplesB l = true)
    (hx : l.any (fun p =>
      p.name = x.name && p.brand = x.brand && p.material = x.material) = false) :
    uniqueTriplesB (l ++ [x]) = true := by
  induction l with
  | nil => simp [uniqueTriplesB]
  | cons p rest ih =>
    simp only [uniqueTriplesB, Bool.and_eq_true, Bool.not_eq_true',
      List.any_cons, Bool.or_eq_false_iff] at hl hx
    simp only [List.cons_append, List.append_eq, uniqueTriplesB,
      Bool.and_eq_true, Bool.not_eq_true', List.any_append, List.any_cons,
      List.any_nil, Bool.or_false, Bool.or_eq_false_iff]
    refine ⟨⟨hl.1, ?_⟩, ih hl.2 hx.2⟩
    have hne := hx.1
    simp only [Bool.and_eq_false_iff, decide_eq_false_iff_not] at hne
    simp only [triple, decide_eq_false_iff_not, Prod.mk.injEq, not_and]
    intro h1 h2 h3
    rcases hne with (h | h) | h
    · exact h h1.symm
    · exact h h2.symm
    · exact h h3.symm

/-- C4: the create operation evaluates its duplicate check against the
products array read inside the locked section; a call whose key triple
already occurs fails with the duplicate error and leaves the state
untouched, any other validated call appends exactly its record, and every
create call preserves key-triple uniqueness of the persisted catalog. -/
theorem c4_create_uniqueness (req : AddProductReq) (v : AddValidated)
    (s : ServerState) :
    (addValidate req = some v →
      ((readFallback s.products).any (fun p =>
          p.name = jsTrim v.name && p.brand = v.normalizedBrand &&
          p.material = v.normalizedMaterial) = true →
        addProduct req s =
          (s, .dupError (jsTrim v.name) v.normalizedBrand
            v.normalizedMaterial)) ∧
      ((readFallback s.products).any (fun p =>
          p.name = jsTrim v.name && p.brand = v.normalizedBrand &&
          p.material = v.normalizedMaterial) = false →
        addProduct req s =
          ({ s with
             products := StoreFile.stored
               (readFallback s.products ++ [mkNewProduct v]) },
           .created (mkNewProduct v)))) ∧
    (uniqueTriplesB (readFallback s.products) = true →
      uniqueTriplesB (readFallback (addProduct req s).1.products) = true) := by
  have hkey : ∀ v' : AddValidated, addValidate req = some v' →
      ((readFallback s.products).any (fun p =>
          p.name = jsTrim v'.name && p.brand = v'.normalizedBrand &&
          p.material = v'.normalizedMaterial) = true →
        addProduct req s =
          (s, .dupError (jsTrim v'.name) v'.normalizedBrand
            v'.normalizedMaterial)) ∧
      ((readFallback s.products).any (fun p =>
          p.name = jsTrim v'.name && p.brand = v'.normalizedBrand &&
          p.material = v'.normalizedMaterial) = false →
        addProduct req s =
          ({ s with
             products := StoreFile.stored
               (readFallback s.products ++ [mkNewProduct v']) },
           .created (mkNewProduct v'))) := by
    intro v' hv
    constructor
    · intro hdup
      simp [addProduct, hv, addProductLocked, hdup]
    · intro hdup
      simp [addProduct, hv, addProductLocked, hdup]
  refine ⟨hkey v, ?_⟩
  intro huniq
  cases hv : addValidate req with
  | none => simpa [addProduct, hv] using huniq
  | some v' =>
    cases hdup : (readFallback s.products).any (fun p =>
        p.name = jsTrim v'.name && p.brand = v'.normalizedBrand &&
        p.material = v'.normalizedMaterial) with
    | true =>
      rw [(hkey v' hv).1 hdup]
      exact huniq
    | false =>
      have hx : (readFallback s.products).any (fun p =>
          p.name = (mkNewProduct v').name &&
          p.brand = (mkNewProduct v').brand &&
          p.material = (mkNewProduct v').material) = false := by
        simpa [mkNewProduct] using hdup
      rw [(hkey v' hv).2 hdup]
      exact uniqueTriplesB_append_single (readFallback s.products)
        (mkNewProduct v') huniq hx

/-- C4 witness: re-creating ringA on a catalog already holding it fails
with the duplicate error and changes nothing, creating it on the empty
catalog appends it, and both runs preserve key uniqueness. -/
theorem c4_create_uniqueness_witness :
    addProduct ringAReq (baseState [ringA]) =
      (baseState [ringA],
       .dupError (jsTrim "Ring A") "Cartier" "18K Gold") ∧
    uniqueTriplesB (readFallback
      (addProduct ringAReq (baseState [])).1.products) = true := by
  constructor
  · exact ((c4_create_uniqueness ringAReq
      { name := "Ring A", normalizedBrand := "Cartier",
        normalizedType := "Nhẫn", normalizedMaterial := "18K Gold",
        imageFilename := "a.jpg", parsedStock := 5,
        parsedOriginalPrice := 1000, parsedSalePrice := 900 }
      (baseState [ringA])).1 (by decide)).1 (by decide)
  · exact (c4_create_uniqueness ringAReq
      { name := "Ring A", normalizedBrand := "Cartier",
        normalizedType := "Nhẫn", normalizedMaterial := "18K Gold",
        imageFilename := "a.jpg", parsedStock := 5,
        parsedOriginalPrice := 1000, parsedSalePrice := 900 }
      (baseState [])).2 (by decide)

/-- The per-item pre-check never produces a created-order response. -/
theorem itemCheck_not_created (products : List Product) (it : CartItem)
    (e : OrderResp) (h : itemCheck products it = some e) :
    ∀ o : OrderRec, e ≠ OrderResp.created o := by
  intro o
  unfold itemCheck at h
  split at h
  · simp only [Option.some.injEq] at h
    subst h; simp
  · split at h
    · simp only [Option.some.injEq] at h
      subst h; simp
    · split at h
      · simp only [Option.some.injEq] at h
        subst h; simp
      · simp at h

/-- The pre-check loop never produces a created-order response. -/
theorem itemsCheck_not_created (products : List Product) :
    ∀ (items : List CartItem) (e : OrderResp),
      itemsCheck products items = some e →
      ∀ o : OrderRec, e ≠ OrderResp.created o := by
  intro items
  induction items with
  | nil => intro e h; simp [itemsCheck] at h
  | cons a rest ih =>
    intro e h
    unfold itemsCheck at h
    cases hic : itemCheck products a with
    | some e' =>
      rw [hic] at h
      cases h
      exact itemCheck_not_created products a e hic
    | none =>
      rw [hic] at h
      exact ih e h

/-- Order validation never produces a created-order response. -/
theorem orderValidate_not_created (req : OrderReq) (products : List Product)
    (e : OrderResp) (h : orderValidate req products = some e) :
    ∀ o : OrderRec, e ≠ OrderResp.created o := by
  unfold orderValidate at h
  split at h
  · intro o
    simp only [Option.some.injEq] at h
    subst h; simp
  · split at h
    · intro o
      simp only [Option.some.injEq] at h
      subst h; simp
    · split at h
      · intro o
        simp only [Option.some.injEq] at h
        subst h; simp
      · exact itemsCheck_not_created products req.cartItems e h

/-- If the pre-check loop passes, every item passed its check. -/
theorem itemsCheck_none (products : List Product) :
    ∀ items : List CartItem, itemsCheck products items = none →
      ∀ it ∈ items, itemCheck products it = none := by
  intro items
  induction items with
  | nil => intro _ it hmem; cases hmem
  | cons a rest ih =>
    intro h it hmem
    unfold itemsCheck at h
    cases hic : itemCheck products a with
    | some e => rw [hic] at h; cases h
    | none =>
      rw [hic] at h
      rcases List.mem_cons.mp hmem with rfl | hm
      · exact hic
      · exact ih h it hm

/-- An item that fails stock validation fails its pre-check. -/
theorem stockFail_itemCheck (products : List Product) (it : CartItem)
    (h : stockFailB products it = true) :
    itemCheck products it ≠ none := by
  unfold itemCheck
  unfold stockFailB at h
  split
  · simp
  · cases hfind : products.find?
        (fun p => keyMatch p it.name it.brand it.material) with
    | none => simp [hfind]
    | some p =>
      rw [hfind] at h
      simp only [hfind]
      split <;> simp_all

/-- C2: an order whose cart items include one that fails stock validation
(no matching catalog record, or stock below the ordered quantity) fails
without touching any store: the products, carts and orders files are all
exactly as before, and no order is created. -/
theorem c2_order_all_or_nothing (req : OrderReq) (now : String)
    (s : ServerState) (products : List Product)
    (hread : readStrict s.products = some products)
    (hfail : ∃ it ∈ req.cartItems, stockFailB products it = true) :
    (createOrder req now s).1 = s ∧
    ∀ o : OrderRec, (createOrder req now s).2 ≠ OrderResp.created o := by
  obtain ⟨it, hmem, hsf⟩ := hfail
  cases hv : orderValidate req products with
  | none =>
    exfalso
    have hnone : itemsCheck products req.cartItems = none := by
      unfold orderValidate at hv
      split at hv
      · cases hv
      · split at hv
        · cases hv
        · split at hv
          · cases hv
          · exact hv
    exact stockFail_itemCheck products it hsf
      (itemsCheck_none products req.cartItems hnone it hmem)
  | some e =>
    have hres : createOrder req now s = (s, e) := by
      simp [createOrder, hread, hv]
    rw [hres]
    exact ⟨rfl, orderValidate_not_created req products e hv⟩

/-- C2 witness: an order of 10 units against stock 3 leaves the catalog,
carts and orders files untouched and creates no order. -/
theorem c2_order_all_or_nothing_witness :
    (createOrder insufficientOrderReq "t0" (baseState [ringB])).1 =
      baseState [ringB] ∧
    (createOrder insufficientOrderReq "t0" (baseState [ringB])).2 ≠
      OrderResp.created (mkOrder insufficientOrderReq "t0") := by
  have h := c2_order_all_or_nothing insufficientOrderReq "t0"
    (baseState [ringB]) [ringB] rfl (by decide)
  exact ⟨h.1, h.2 (mkOrder insufficientOrderReq "t0")⟩

/-- A record matches an item key exactly when its triple equals it. -/
theorem keyMatch_iff_triple (q : Product) (it : CartItem) :
    keyMatch q it.name it.brand it.material = true ↔ triple q = itemKey it := by
  simp [keyMatch, triple, itemKey, Prod.ext_iff, and_assoc]

/-- When some record matches the item, the locked decrement step
succeeds. -/
theorem updateFirstMatch_isSome (it : CartItem) :
    ∀ products : List Product,
      (products.find? (fun p =>
        keyMatch p it.name it.brand it.material)).isSome = true →
      ∃ l', updateFirstMatch it products = some l' := by
  intro products
  induction products with
  | nil => intro h; simp at h
  | cons p rest ih =>
    intro h
    cases hk : keyMatch p it.name it.brand it.material with
    | true =>
      refine ⟨if p.stock - it.quantity = 0 then rest
        else { p with stock := p.stock - it.quantity } :: rest, ?_⟩
      simp [updateFirstMatch, hk]
    | false =>
      rw [List.find?_cons_of_neg _ (by simp [hk])] at h
      obtain ⟨l', hl'⟩ := ih h
      exact ⟨p :: l', by simp [updateFirstMatch, hk, hl']⟩

/-- The decrement step keeps every record whose key differs from the
processed item. -/
theorem updateFirstMatch_mem (it : CartItem) :
    ∀ (products products' : List Product),
      updateFirstMatch it products = some products' →
      ∀ q ∈ products, keyMatch q it.name it.brand it.material = false →
        q ∈ products' := by
  intro products
  induction products with
  | nil => intro products' h; simp [updateFirstMatch] at h
  | cons p rest ih =>
    intro products' h q hq hkm
    unfold updateFirstMatch at h
    split at h
    · next hk =>
      simp only [Option.some.injEq] at h
      rcases List.mem_cons.mp hq with rfl | hm
      · rw [hkm] at hk; cases hk
      · subst h
        split
        · exact hm
        · exact List.mem_cons_of_mem _ hm
    · next hk =>
      cases hrest : updateFirstMatch it rest with
      | none => rw [hrest] at h; simp at h
      | some rest' =>
        rw [hrest] at h
        simp only [Option.some.injEq] at h
        subst h
        rcases List.mem_cons.mp hq with rfl | hm
        · exact List.mem_cons_self _ _
        · exact List.mem_cons_of_mem _ (ih rest' hrest q hm hkm)

/-- The decrement step introduces no new key triples. -/
theorem updateFirstMatch_any (it : CartItem) :
    ∀ (products products' : List Product),
      updateFirstMatch it products = some products' →
      ∀ t : String × String × String,
        products'.any (fun q => triple q = t) = true →
        products.any (fun q => triple q = t) = true := by
  intro products
  induction products with
  | nil => intro products' h; simp [updateFirstMatch] at h
  | cons p rest ih =>
    intro products' h t hany
    unfold updateFirstMatch at h
    split at h
    · next hk =>
      simp only [Option.some.injEq] at h
      subst h
      simp only [List.any_cons, Bool.or_eq_true]
      split at hany
      · exact Or.inr hany
      · simp only [List.any_cons, Bool.or_eq_true] at hany
        rcases hany with h1 | h1
        · exact Or.inl (by simpa [triple] using h1)
        · exact Or.inr h1
    · next hk =>
      cases hrest : updateFirstMatch it rest with
      | none => rw [hrest] at h; simp at h
      | some rest' =>
        rw [hrest] at h
        simp only [Option.some.injEq] at h
        subst h
        simp only [List.any_cons, Bool.or_eq_true] at hany ⊢
        rcases hany with h1 | h1
        · exact Or.inl h1
        · exact Or.inr (ih rest' hrest t h1)

/-- The decrement step preserves key-triple uniqueness of the catalog. -/
theorem updateFirstMatch_unique (it : CartItem) :
    ∀ (products products' : List Product),
      updateFirstMatch it products = some products' →
      uniqueTriplesB products = true → uniqueTriplesB products' = true := by
  intro products
  induction products with
  | nil => intro products' h; simp [updateFirstMatch] at h
  | cons p rest ih =>
    intro products' h hu
    simp only [uniqueTriplesB, Bool.and_eq_true, Bool.not_eq_true'] at hu
    unfold updateFirstMatch at h
    split at h
    · next hk =>
      simp only [Option.some.injEq] at h
      subst h
      split
      · exact hu.2
      · simp only [uniqueTriplesB, Bool.and_eq_true, Bool.not_eq_true']
        exact ⟨by simpa [triple] using hu.1, hu.2⟩
    · next hk =>
      cases hrest : updateFirstMatch it rest with
      | none => rw [hrest] at h; simp at h
      | some rest' =>
        rw [hrest] at h
        simp only [Option.some.injEq] at h
        subst h
        simp only [uniqueTriplesB, Bool.and_eq_true, Bool.not_eq_true']
        refine ⟨?_, ih rest' hrest hu.2⟩
        cases hany : rest'.any (fun q => triple q = triple p) with
        | false => rfl
        | true =>
          rw [updateFirstMatch_any it rest rest' hrest (triple p) hany] at hu
          cases hu.1

/-- An empty order leaves the specified outcome equal to the catalog. -/
theorem orderOutcome_nil (products : List Product) :
    orderOutcome [] products = products := by
  have : products.filterMap some = products := List.filterMap_some products
  simpa [orderOutcome, itemFor] using this

/-- Records matched by none of the first item keep the same outcome when
that item is dropped. -/
theorem orderOutcome_congr_head (it : CartItem) (rest : List CartItem)
    (ps : List Product)
    (hno : ∀ q ∈ ps, keyMatch q it.name it.brand it.material = false) :
    orderOutcome (it :: rest) ps = orderOutcome rest ps := by
  unfold orderOutcome
  apply List.filterMap_congr
  intro q hq
  have : itemFor (it :: rest) q = itemFor rest q := by
    unfold itemFor
    exact List.find?_cons_of_neg _ (by simp [hno q hq])
  rw [this]

/-- Outcome of a record ordered by no item: kept unchanged. -/
theorem orderOutcome_cons_none (items : List CartItem) (p : Product)
    (ps : List Product) (h : itemFor items p = none) :
    orderOutcome items (p :: ps) = p :: orderOutcome items ps := by
  simp only [orderOutcome, List.filterMap_cons, h]

/-- Outcome of a record whose ordered quantity empties its stock:
removed. -/
theorem orderOutcome_cons_del (items : List CartItem) (p : Product)
    (ps : List Product) (j : CartItem) (h : itemFor items p = some j)
    (hz : p.stock - j.quantity = 0) :
    orderOutcome items (p :: ps) = orderOutcome items ps := by
  simp only [orderOutcome, List.filterMap_cons, h, hz, if_true]

/-- Outcome of a record with stock left after the decrement: kept with
the decremented stock. -/
theorem orderOutcome_cons_dec (items : List CartItem) (p : Product)
    (ps : List Product) (j : CartItem) (h : itemFor items p = some j)
    (hz : ¬(p.stock - j.quantity = 0)) :
    orderOutcome items (p :: ps) =
      { p with stock := p.stock - j.quantity } :: orderOutcome items ps := by
  simp only [orderOutcome, List.filterMap_cons, h, hz, if_false]

/-- One step of the locked loop realizes one step of the specified
outcome, provided the catalog keys are unique and no later item repeats
the processed key. -/
theorem orderOutcome_step (it : CartItem) (rest : List CartItem) :
    ∀ (l l' : List Product),
      uniqueTriplesB l = true →
      (∀ j ∈ rest, itemKey j ≠ itemKey it) →
      updateFirstMatch it l = some l' →
      orderOutcome (it :: rest) l = orderOutcome rest l' := by
  intro l
  induction l with
  | nil => intro l' _ _ h; simp [updateFirstMatch] at h
  | cons p ps ih =>
    intro l' hu hdist h
    simp only [uniqueTriplesB, Bool.and_eq_true, Bool.not_eq_true'] at hu
    unfold updateFirstMatch at h
    split at h
    · next hk =>
      simp only [Option.some.injEq] at h
      subst h
      have htriple : triple p = itemKey it := (keyMatch_iff_triple p it).mp hk
      have hps : ∀ q ∈ ps, keyMatch q it.name it.brand it.material = false := by
        intro q hq
        cases hkq : keyMatch q it.name it.brand it.material with
        | false => rfl
        | true =>
          exfalso
          have heq : triple q = triple p := by
            rw [(keyMatch_iff_triple q it).mp hkq, htriple]
          have hfalse := hu.1
          rw [List.any_eq_false] at hfalse
          exact hfalse q hq (by simpa using heq)
      have hhead : itemFor (it :: rest) p = some it := by
        unfold itemFor
        exact List.find?_cons_of_pos _ (by simpa using hk)
      have htail := orderOutcome_congr_head it rest ps hps
      by_cases hz : p.stock - it.quantity = 0
      · rw [orderOutcome_cons_del (it :: rest) p ps it hhead hz, htail]
        have hc : ({ p with stock := p.stock - it.quantity } : Product).stock
            = 0 := hz
        rw [if_pos hc]
      · rw [orderOutcome_cons_dec (it :: rest) p ps it hhead hz, htail]
        have hc : ¬(({ p with stock := p.stock - it.quantity } :
            Product).stock = 0) := hz
        rw [if_neg hc]
        have hfor : itemFor rest { p with stock := p.stock - it.quantity } =
            none := by
          unfold itemFor
          rw [List.find?_eq_none]
          intro x hx
          simp only [Bool.not_eq_true]
          cases hkx : keyMatch { p with stock := p.stock - it.quantity }
              x.name x.brand x.material with
          | false => rfl
          | true =>
            exfalso
            have h1 : triple { p with stock := p.stock - it.quantity } =
                itemKey x := (keyMatch_iff_triple _ x).mp hkx
            have h2 : triple { p with stock := p.stock - it.quantity } =
                triple p := rfl
            exact hdist x hx (by rw [← h1, h2, htriple])
        rw [orderOutcome_cons_none rest _ ps hfor]
    · next hk =>
      have hk : keyMatch p it.name it.brand it.material = false := by
        simpa using hk
      cases hrest : updateFirstMatch it ps with
      | none => rw [hrest] at h; simp at h
      | some ps' =>
        rw [hrest] at h
        simp only [Option.some.injEq] at h
        subst h
        have hhead : itemFor (it :: rest) p = itemFor rest p := by
          unfold itemFor
          exact List.find?_cons_of_neg _ (by simp [hk])
        have htail := ih ps' hu.2 hdist hrest
        cases hf : itemFor rest p with
        | none =>
          rw [orderOutcome_cons_none (it :: rest) p ps (hhead.trans hf),
            orderOutcome_cons_none rest p ps' hf, htail]
        | some j =>
          by_cases hz : p.stock - j.quantity = 0
          · rw [orderOutcome_cons_del (it :: rest) p ps j (hhead.trans hf) hz,
              orderOutcome_cons_del rest p ps' j hf hz, htail]
          · rw [orderOutcome_cons_dec (it :: rest) p ps j (hhead.trans hf) hz,
              orderOutcome_cons_dec rest p ps' j hf hz, htail]

/-- The locked loop of order creation computes exactly the specified
outcome when the catalog keys are unique, the cart items have pairwise
distinct keys, and every item matches some record. -/
theorem applyOrderItems_eq_outcome :
    ∀ (items : List CartItem) (products : List Product),
      uniqueTriplesB products = true →
      distinctItemKeysB items = true →
      (∀ it ∈ items, (products.find? (fun p =>
        keyMatch p it.name it.brand it.material)).isSome = true) →
      applyOrderItems items products = some (orderOutcome items products) := by
  intro items
  induction items with
  | nil =>
    intro products _ _ _
    rw [orderOutcome_nil]
    rfl
  | cons it rest ih =>
    intro products hu hdist hfind
    simp only [distinctItemKeysB, Bool.and_eq_true, Bool.not_eq_true'] at hdist
    have hdist1 : ∀ j ∈ rest, itemKey j ≠ itemKey it := by
      have := hdist.1
      rw [List.any_eq_false] at this
      intro j hj
      simpa using this j hj
    obtain ⟨l', hl'⟩ := updateFirstMatch_isSome it products (hfind it (by simp))
    have hstep : applyOrderItems (it :: rest) products =
        applyOrderItems rest l' := by
      show (match updateFirstMatch it products with
        | none => none
        | some products' => applyOrderItems rest products') =
        applyOrderItems rest l'
      rw [hl']
    have hfind' : ∀ j ∈ rest, (l'.find? (fun p =>
        keyMatch p j.name j.brand j.material)).isSome = true := by
      intro j hj
      have hjs := hfind j (List.mem_cons_of_mem _ hj)
      rw [List.find?_isSome] at hjs ⊢
      obtain ⟨q, hq, hkq⟩ := hjs
      refine ⟨q, ?_, hkq⟩
      apply updateFirstMatch_mem it products l' hl' q hq
      cases hkqit : keyMatch q it.name it.brand it.material with
      | false => rfl
      | true =>
        exfalso
        apply hdist1 j hj
        rw [← (keyMatch_iff_triple q j).mp (by simpa using hkq),
          ← (keyMatch_iff_triple q it).mp hkqit]
    rw [hstep, ih l' (updateFirstMatch_unique it products l' hl' hu) hdist.2
      hfind', orderOutcome_step it rest products l' hu hdist1 hl']

/-- C3 counterexample: the order dupItemsOrderReq passes the pre-checks
(each of its two identical items is within stock on its own), yet the
transactional phase does not produce the described effects: the first
decrement empties and removes the record, the second findIndex yields -1,
the thrown TypeError aborts the callback, and the operation answers 500
with no stock decremented, no cart removed and no order appended. -/
theorem c3_duplicate_items_counterexample :
    orderValidate dupItemsOrderReq [ringB] = none ∧
    createOrder dupItemsOrderReq "t0" (baseState [ringB]) =
      (baseState [ringB], .serverError) := by
  constructor <;> decide

/-- C3 amended: for every order request that passes validation and whose
cart items carry pairwise distinct key triples (on a catalog with unique
key triples), the transactional phase produces exactly the spec outcome:
per-item stock decrements with zero-stock records removed, the ordering
guest's carts dropped with other carts kept, and exactly one new order
record appended, all three files persisted. -/
theorem c3_transaction_effects (req : OrderReq) (now : String)
    (s : ServerState) (products : List Product)
    (hread : readStrict s.products = some products)
    (hval : orderValidate req products = none)
    (hdist : distinctItemKeysB req.cartItems = true)
    (huniq : uniqueTriplesB products = true) :
    createOrder req now s =
      ({ products := .stored (orderOutcome req.cartItems products),
         carts := .stored ((readFallback s.carts).filter
           (fun c => c.guestId ≠ req.guestId)),
         orders := .stored (readFallback s.orders ++ [mkOrder req now]) },
       .created (mkOrder req now)) := by
  have hfind : ∀ it ∈ req.cartItems, (products.find? (fun p =>
      keyMatch p it.name it.brand it.material)).isSome = true := by
    intro it hmem
    have hnone : itemsCheck products req.cartItems = none := by
      unfold orderValidate at hval
      split at hval
      · cases hval
      · split at hval
        · cases hval
        · split at hval
          · cases hval
          · exact hval
    have hic := itemsCheck_none products req.cartItems hnone it hmem
    unfold itemCheck at hic
    split at hic
    · cases hic
    · cases hfind2 : products.find?
          (fun p => keyMatch p it.name it.brand it.material) with
      | none => rw [hfind2] at hic; cases hic
      | some p => simp [hfind2]
  have happly := applyOrderItems_eq_outcome req.cartItems products huniq
    hdist hfind
  simp [createOrder, hread, hval, happly]

/-- C3 witness: the two-item order of okOrderReq on twoCartState empties
and removes ringB, leaves ringA at stock 2, deletes the g1 cart while
keeping the g2 cart, and appends exactly one order record. -/
theorem c3_transaction_effects_witness :
    createOrder okOrderReq "2026-01-01" twoCartState =
      ({ products := .stored [{ ringA with stock := 2 }],
         carts := .stored
           [{ guestId := "g2", items :=
               [{ name := "Ring B", brand := "Bvlgari",
                  material := "Platinum", quantity := 1 }] }],
         orders := .stored [mkOrder okOrderReq "2026-01-01"] },
       .created (mkOrder okOrderReq "2026-01-01")) := by
  rw [c3_transaction_effects okOrderReq "2026-01-01" twoCartState
    [ringA, ringB] rfl (by decide) (by decide) (by decide)]
  decide

/-- The line bump fails exactly when no line matches the key. -/
theorem bumpFirstItem_none_iff (n b m : String) (q : Int) :
    ∀ items : List CartItem,
      bumpFirstItem n b m q items = none ↔
      items.any (fun it =>
        it.name = n && it.brand = b && it.material = m) = false := by
  intro items
  induction items with
  | nil => simp [bumpFirstItem]
  | cons it rest ih =>
    unfold bumpFirstItem
    cases hk : (it.name = n && it.brand = b && it.material = m : Bool) with
    | true =>
      simp [hk]
    | false =>
      simp only [hk, Bool.false_eq_true, if_false, List.any_cons,
        Bool.false_or]
      cases hrest : bumpFirstItem n b m q rest with
      | none => simpa [hrest] using ih
      | some rest' => simp only [hrest] at ih ⊢; simpa using ih

/-- The line bump changes no key triple of the cart. -/
theorem bumpFirstItem_keys (n b m : String) (q : Int) :
    ∀ (items items' : List CartItem),
      bumpFirstItem n b m q items = some items' →
      ∀ t : String × String × String,
        items'.any (fun j => itemKey j = t) =
        items.any (fun j => itemKey j = t) := by
  intro items
  induction items with
  | nil => intro items' h; simp [bumpFirstItem] at h
  | cons it rest ih =>
    intro items' h t
    unfold bumpFirstItem at h
    split at h
    · simp only [Option.some.injEq] at h
      subst h
      rfl
    · cases hrest : bumpFirstItem n b m q rest with
      | none => rw [hrest] at h; cases h
      | some rest' =>
        rw [hrest] at h
        simp only [Option.some.injEq] at h
        subst h
        simp only [List.any_cons]
        rw [ih rest' hrest t]

/-- The line bump keeps well-formed items well-formed when the added
quantity is at least 1. -/
theorem bumpFirstItem_wf (n b m : String) (q : Int) :
    ∀ (items items' : List CartItem),
      bumpFirstItem n b m q items = some items' → 1 ≤ q →
      wfItemsB items = true → wfItemsB items' = true := by
  intro items
  induction items with
  | nil => intro items' h; simp [bumpFirstItem] at h
  | cons it rest ih =>
    intro items' h hq hwf
    simp only [wfItemsB, distinctItemKeysB, Bool.and_eq_true,
      Bool.not_eq_true', List.all_cons, decide_eq_true_eq] at hwf
    unfold bumpFirstItem at h
    split at h
    · simp only [Option.some.injEq] at h
      subst h
      simp only [wfItemsB, distinctItemKeysB, Bool.and_eq_true,
        Bool.not_eq_true', List.all_cons, decide_eq_true_eq]
      refine ⟨⟨hwf.1.1, hwf.1.2⟩, ?_, hwf.2.2⟩
      have := hwf.2.1
      omega
    · cases hrest : bumpFirstItem n b m q rest with
      | none => rw [hrest] at h; cases h
      | some rest' =>
        rw [hrest] at h
        simp only [Option.some.injEq] at h
        subst h
        have hrestwf : wfItemsB rest = true := by
          simp only [wfItemsB, Bool.and_eq_true]
          exact ⟨hwf.1.2, hwf.2.2⟩
        have hwf' := ih rest' hrest hq hrestwf
        simp only [wfItemsB, Bool.and_eq_true] at hwf'
        simp only [wfItemsB, distinctItemKeysB, Bool.and_eq_true,
          Bool.not_eq_true', List.all_cons, decide_eq_true_eq]
        refine ⟨⟨?_, hwf'.1⟩, hwf.2.1, hwf'.2⟩
        rw [bumpFirstItem_keys n b m q rest rest' hrest (itemKey it)]
        exact hwf.1.1

/-- On a cart with distinct line keys, the bump is the pointwise map the
claim describes: the (unique) matching line grows by q, others are kept. -/
theorem bumpFirstItem_map (n b m : String) (q : Int) :
    ∀ (items items' : List CartItem),
      distinctItemKeysB items = true →
      bumpFirstItem n b m q items = some items' →
      items' = items.map (fun it =>
        if it.name = n && it.brand = b && it.material = m then
          { it with quantity := it.quantity + q }
        else it) := by
  intro items
  induction items with
  | nil => intro items' _ h; simp [bumpFirstItem] at h
  | cons it rest ih =>
    intro items' hdist h
    simp only [distinctItemKeysB, Bool.and_eq_true, Bool.not_eq_true'] at hdist
    unfold bumpFirstItem at h
    split at h
    · next hk =>
      simp only [Option.some.injEq] at h
      subst h
      simp only [List.map_cons, hk, if_true]
      congr 1
      have hnomatch : ∀ x ∈ rest,
          (x.name = n && x.brand = b && x.material = m : Bool) = false := by
        intro x hx
        cases hkx : (x.name = n && x.brand = b && x.material = m : Bool) with
        | false => rfl
        | true =>
          exfalso
          have hfalse := hdist.1
          rw [List.any_eq_false] at hfalse
          apply hfalse x hx
          simp only [Bool.and_eq_true, decide_eq_true_eq] at hk hkx
          simp only [itemKey, decide_eq_true_eq, Prod.mk.injEq]
          rw [hkx.1.1, hkx.1.2, hkx.2, hk.1.1, hk.1.2, hk.2]
          exact ⟨rfl, rfl, rfl⟩
      have : rest.map (fun it =>
          if it.name = n && it.brand = b && it.material = m then
            { it with quantity := it.quantity + q }
          else it) = rest.map id := by
        apply List.map_congr_left
        intro x hx
        simp [hnomatch x hx]
      rw [this, List.map_id]
    · next hk =>
      cases hrest : bumpFirstItem n b m q rest with
      | none => rw [hrest] at h; cases h
      | some rest' =>
        rw [hrest] at h
        simp only [Option.some.injEq] at h
        subst h
        simp only [List.map_cons]
        rw [if_neg (by simpa using hk)]
        congr 1
        exact ih rest' hdist.2 hrest

/-- Appending a line whose key occurs nowhere keeps the keys distinct. -/
theorem distinctItemKeys_append_single (n b m : String) (q : Int) :
    ∀ items : List CartItem,
      distinctItemKeysB items = true →
      items.any (fun it =>
        it.name = n && it.brand = b && it.material = m) = false →
      distinctItemKeysB
        (items ++ [{ name := n, brand := b, material := m, quantity := q }])
        = true := by
  intro items
  induction items with
  | nil => intro _ _; simp [distinctItemKeysB]
  | cons it rest ih =>
    intro hdist hany
    simp only [distinctItemKeysB, Bool.and_eq_true, Bool.not_eq_true']
      at hdist
    simp only [List.any_cons, Bool.or_eq_false_iff] at hany
    simp only [List.cons_append, List.append_eq, distinctItemKeysB,
      Bool.and_eq_true, Bool.not_eq_true', List.any_append, List.any_cons,
      List.any_nil, Bool.or_false, Bool.or_eq_false_iff]
    refine ⟨⟨hdist.1, ?_⟩, ih hdist.2 hany.2⟩
    have hne := hany.1
    simp only [Bool.and_eq_false_iff, decide_eq_false_iff_not] at hne
    simp only [itemKey, decide_eq_false_iff_not, Prod.mk.injEq, not_and]
    intro h1 h2 h3
    rcases hne with (h | h) | h
    · exact h h1.symm
    · exact h h2.symm
    · exact h h3.symm

/-- The cart-line merge keeps well-formed items well-formed for a
positive quantity. -/
theorem addLine_wf (n b m : String) (q : Int) (items : List CartItem)
    (hwf : wfItemsB items = true) (hq : 1 ≤ q) :
    wfItemsB (addLine n b m q items) = true := by
  unfold addLine
  cases hbump : bumpFirstItem n b m q items with
  | some items' => exact bumpFirstItem_wf n b m q items items' hbump hq hwf
  | none =>
    have hany := (bumpFirstItem_none_iff n b m q items).mp hbump
    simp only [wfItemsB, Bool.and_eq_true] at hwf
    simp only [wfItemsB, Bool.and_eq_true]
    constructor
    · exact distinctItemKeys_append_single n b m q items hwf.1 hany
    · simp only [List.all_append, Bool.and_eq_true, List.all_cons,
        List.all_nil, Bool.and_true, decide_eq_true_eq]
      exact ⟨hwf.2, hq⟩

/-- On a cart with distinct line keys, the code merge equals the merge
the claim describes. -/
theorem addLine_eq_spec (n b m : String) (q : Int) (items : List CartItem)
    (hdist : distinctItemKeysB items = true) :
    addLine n b m q items = mergedItemsSpec n b m q items := by
  unfold addLine mergedItemsSpec
  cases hbump : bumpFirstItem n b m q items with
  | none =>
    rw [(bumpFirstItem_none_iff n b m q items).mp hbump]
    simp
  | some items' =>
    have hany : items.any (fun it =>
        it.name = n && it.brand = b && it.material = m) = true := by
      cases hcase : items.any (fun it =>
          it.name = n && it.brand = b && it.material = m) with
      | true => rfl
      | false =>
        rw [← bumpFirstItem_none_iff n b m q items] at hcase
        rw [hcase] at hbump
        cases hbump
    rw [hany]
    simp only [if_true]
    exact bumpFirstItem_map n b m q items items' hdist hbump

/-- The cart rewrite fails exactly when the guest has no cart. -/
theorem updateFirstCart_none (g n b m : String) (q : Int) :
    ∀ carts : List Cart,
      updateFirstCart g n b m q carts = none ↔
      carts.find? (fun c => c.guestId = g) = none := by
  intro carts
  induction carts with
  | nil => simp [updateFirstCart]
  | cons c rest ih =>
    unfold updateFirstCart
    by_cases hcg : c.guestId = g
    · rw [if_pos hcg, List.find?_cons_of_pos _ (by simp [hcg])]
      constructor
      · intro h; cases h
      · intro h; cases h
    · rw [if_neg hcg, List.find?_cons_of_neg _ (by simp [hcg])]
      cases hrest : updateFirstCart g n b m q rest with
      | none => simpa [hrest] using ih
      | some r =>
        obtain ⟨rest', c''⟩ := r
        constructor
        · intro h; cases h
        · intro h
          have h2 := ih.mpr h
          rw [hrest] at h2
          cases h2

/-- Shape of a successful cart rewrite: the first cart of the guest gets
the merged items, every cart of the result is an old cart or the updated
one, and the updated cart is what a later read finds for the guest. -/
theorem updateFirstCart_some (g n b m : String) (q : Int) :
    ∀ (carts carts' : List Cart) (c' : Cart),
      updateFirstCart g n b m q carts = some (carts', c') →
      ∃ c₀, carts.find? (fun c => c.guestId = g) = some c₀ ∧
        c' = { c₀ with items := addLine n b m q c₀.items } ∧
        carts'.find? (fun c => c.guestId = g) = some c' ∧
        ∀ c ∈ carts', c ∈ carts ∨ c = c' := by
  intro carts
  induction carts with
  | nil => intro carts' c' h; simp [updateFirstCart] at h
  | cons c rest ih =>
    intro carts' c' h
    unfold updateFirstCart at h
    split at h
    · next hcg =>
      simp only [Option.some.injEq, Prod.mk.injEq] at h
      obtain ⟨hcarts, hc'⟩ := h
      subst hcarts
      subst hc'
      refine ⟨c, List.find?_cons_of_pos _ (by simp [hcg]), rfl, ?_, ?_⟩
      · exact List.find?_cons_of_pos _ (by simp [hcg])
      · intro x hx
        rcases List.mem_cons.mp hx with rfl | hm
        · exact Or.inr rfl
        · exact Or.inl (List.mem_cons_of_mem _ hm)
    · next hcg =>
      cases hrest : updateFirstCart g n b m q rest with
      | none => rw [hrest] at h; cases h
      | some pr =>
        rw [hrest] at h
        obtain ⟨rest', c''⟩ := pr
        simp only [Option.some.injEq, Prod.mk.injEq] at h
        obtain ⟨hcarts, hc'⟩ := h
        subst hcarts
        subst hc'
        obtain ⟨c₀, hfind0, hc0, hfind', hmem⟩ := ih rest' c'' hrest
        have hcgf : (c.guestId = g : Bool) = false := by
          simpa using hcg
        refine ⟨c₀, ?_, hc0, ?_, ?_⟩
        · rw [List.find?_cons_of_neg _ (by simp [hcgf])]
          exact hfind0
        · rw [List.find?_cons_of_neg _ (by simp [hcgf])]
          exact hfind'
        · intro x hx
          rcases List.mem_cons.mp hx with rfl | hm
          · exact Or.inl (List.mem_cons_self _ _)
          · rcases hmem x hm with h1 | h1
            · exact Or.inl (List.mem_cons_of_mem _ h1)
            · exact Or.inr h1

/-- C9: a cart Add with quantity at least 1 that passes the product and
stock checks rewrites only the carts file; the owner cart items become
exactly the merge the claim describes (the matching line grows by q, or a
new line is appended), the returned cart is the owner cart a later read
finds, and well-formedness — at most one line per key triple, every
quantity at least 1 — is preserved for every cart in the store. -/
theorem c9_cart_merge (g n b m : String) (q : Int) (s : ServerState)
    (products : List Product) (p : Product)
    (hg : g ≠ "") (hn : n ≠ "") (hb : b ≠ "") (hm : m ≠ "") (hq : 1 ≤ q)
    (hread : readStrict s.products = some products)
    (hfind : products.find? (fun p' => keyMatch p' n b m) = some p)
    (hstock : ¬(p.stock < q)) :
    ∃ (carts' : List Cart) (c' : Cart),
      addToCart { guestId := some g, name := some n, brand := some b,
                  material := some m, quantity := some q } s =
        ({ s with carts := .stored carts' }, .okCart c') ∧
      c'.guestId = g ∧
      itemsOfGuest g carts' = c'.items ∧
      (cartsWFB (readFallback s.carts) = true →
        c'.items = mergedItemsSpec n b m q
          (itemsOfGuest g (readFallback s.carts))) ∧
      (cartsWFB (readFallback s.carts) = true → cartsWFB carts' = true) := by
  have h0 : ¬(q = 0) := by omega
  have h1 : ¬(q < 1) := by omega
  have hred : addToCart { guestId := some g, name := some n,
                          brand := some b, material := some m,
                          quantity := some q } s =
      cartLocked g n b m q s := by
    simp [addToCart, hg, hn, hb, hm, h0, h1, hread, hfind, hstock]
  cases hupd : updateFirstCart g n b m q (readFallback s.carts) with
  | none =>
    have hfnone := (updateFirstCart_none g n b m q (readFallback s.carts)).mp
      hupd
    refine ⟨readFallback s.carts ++
      [{ guestId := g,
         items := [{ name := n, brand := b, material := m,
                     quantity := q }] }],
      { guestId := g,
        items := [{ name := n, brand := b, material := m,
                    quantity := q }] }, ?_, rfl, ?_, ?_, ?_⟩
    · rw [hred]
      unfold cartLocked
      dsimp only
      rw [hupd]
    · unfold itemsOfGuest
      rw [List.find?_append, hfnone]
      simp
    · intro _
      unfold itemsOfGuest mergedItemsSpec
      rw [hfnone]
      simp
    · intro hwf
      simp only [cartsWFB, List.all_eq_true] at hwf ⊢
      intro c hc
      rcases List.mem_append.mp hc with hm1 | hm1
      · exact hwf c hm1
      · rcases List.mem_singleton.mp hm1 with rfl
        simp [wfItemsB, distinctItemKeysB, hq]
  | some pr =>
    obtain ⟨carts', c'⟩ := pr
    obtain ⟨c₀, hfind0, hc0, hfind', hmem⟩ :=
      updateFirstCart_some g n b m q (readFallback s.carts) carts' c' hupd
    have hc0mem : c₀ ∈ readFallback s.carts :=
      List.mem_of_find?_eq_some hfind0
    refine ⟨carts', c', ?_, ?_, ?_, ?_, ?_⟩
    · rw [hred]
      unfold cartLocked
      dsimp only
      rw [hupd]
    · rw [hc0]
      have := List.find?_some hfind0
      simpa using this
    · unfold itemsOfGuest
      rw [hfind']
      rfl
    · intro hwf
      have hwf0 : wfItemsB c₀.items = true := by
        simp only [cartsWFB, List.all_eq_true] at hwf
        exact hwf c₀ hc0mem
      have hdist0 : distinctItemKeysB c₀.items = true := by
        simp only [wfItemsB, Bool.and_eq_true] at hwf0
        exact hwf0.1
      rw [hc0]
      unfold itemsOfGuest
      rw [hfind0]
      simpa using addLine_eq_spec n b m q c₀.items hdist0
    · intro hwf
      have hwf0 : wfItemsB c₀.items = true := by
        simp only [cartsWFB, List.all_eq_true] at hwf
        exact hwf c₀ hc0mem
      simp only [cartsWFB, List.all_eq_true] at hwf ⊢
      intro c hc
      rcases hmem c hc with h2 | h2
      · exact hwf c h2
      · subst h2
        rw [hc0]
        exact addLine_wf n b m q c₀.items hwf0 hq

/-- C9 witness: adding 2 more units of ringA for guest g1 on twoCartState
turns the g1 cart items into exactly the described merge of its previous
items, and every cart of the resulting store stays well-formed. -/
theorem c9_cart_merge_witness :
    itemsOfGuest "g1" (readFallback (addToCart
      { guestId := some "g1", name := some "Ring A",
        brand := some "Cartier", material := some "18K Gold",
        quantity := some 2 } twoCartState).1.carts) =
      mergedItemsSpec "Ring A" "Cartier" "18K Gold" 2
        (itemsOfGuest "g1" (readFallback twoCartState.carts)) ∧
    cartsWFB (readFallback (addToCart
      { guestId := some "g1", name := some "Ring A",
        brand := some "Cartier", material := some "18K Gold",
        quantity := some 2 } twoCartState).1.carts) = true := by
  obtain ⟨carts', c', heq, hgid, hitems, hmerge, hwfpres⟩ :=
    c9_cart_merge "g1" "Ring A" "Cartier" "18K Gold" 2 twoCartState
      [ringA, ringB] ringA (by decide) (by decide) (by decide) (by decide)
      (by decide) rfl (by decide) (by decide)
  rw [heq]
  constructor
  · show itemsOfGuest "g1" carts' =
      mergedItemsSpec "Ring A" "Cartier" "18K Gold" 2
        (itemsOfGuest "g1" (readFallback twoCartState.carts))
    rw [hitems]
    exact hmerge (by decide)
  · show cartsWFB carts' = true
    exact hwfpres (by decide)

end GKH
